import Mathlib

/-!
Verification of the MSVC linker-directive buffer engine
(`src/msvc_impl.rs`, `src/msvc_impl/buffer.rs`, `src/msvc_impl/macros.rs`).

Strings are modelled as lists of byte values (`List Nat`); every byte of an
input string is in `0..256` but nothing below depends on that bound.
Rust `u32` values are modelled as `Nat` with an explicit `< 2^32` hypothesis
where it matters; the operations used (`& 0xf`, `>> 4`) never overflow, so no
masking is needed inside the definitions.

The Rust code runs entirely at constant evaluation time; an out-of-bounds
array index there is a hard compile-time failure.  We model each buffer
operation as returning `Option Buffer`, with `none` standing for that
constant-evaluation failure.
-/

/-- Byte values of a string literal (ASCII in all uses below). -/
def strBytes (s : String) : List Nat :=
  s.data.map Char.toNat

/-- From `buffer.rs::has_quote`: scan a byte slice for a double quote (0x22). -/
def has_quote : List Nat → Bool
  | [] => false
  | b :: rest => if b = 34 then true else has_quote rest

/-- The lookup alphabet of `buffer.rs::to_hex_u32`: `0123456789abcdef`. -/
def hexLookup : List Nat :=
  [48, 49, 50, 51, 52, 53, 54, 55, 56, 57, 97, 98, 99, 100, 101, 102]

/-- The loop of `buffer.rs::to_hex_u32`: starting from the template
`0x00000000`, write the low nibble of `val` at position `index`, shift, and
step `index` down while `index > 1`. -/
def to_hex_loop (val : Nat) (bytes : List Nat) (index : Nat) : List Nat :=
  match index with
  | n + 2 => to_hex_loop (val / 16) (bytes.set (n + 2) (hexLookup.getD (val % 16) 0)) (n + 1)
  | _ => bytes

/-- From `buffer.rs::to_hex_u32`: render a `u32` as the 10 bytes `0xhhhhhhhh`
(8 lowercase hex digits, least-significant nibble written last). -/
def to_hex_u32 (val : Nat) : List Nat :=
  to_hex_loop val (strBytes "0x00000000") 9

/-- From `buffer.rs::Buffer<CAPACITY>`: a fixed byte array plus write cursor.
The capacity is `buffer.length` (kept constant by every operation). -/
structure Buffer where
  buffer : List Nat
  len : Nat
deriving DecidableEq, Repr

/-- From `buffer.rs::Buffer::new`: an all-zero array with cursor 0. -/
def Buffer.new (capacity : Nat) : Buffer :=
  ⟨List.replicate capacity 0, 0⟩

/-- From `buffer.rs::Buffer::push`: copy `src` byte by byte to
`buffer[len]`, advancing `len`.  An out-of-bounds write (cursor at or past
capacity with source bytes remaining) is a constant-evaluation failure,
modelled as `none`. -/
def Buffer.push (b : Buffer) (src : List Nat) : Option Buffer :=
  match src with
  | [] => some b
  | x :: xs =>
    if b.len < b.buffer.length then
      Buffer.push ⟨b.buffer.set b.len x, b.len + 1⟩ xs
    else
      none

/-- From `buffer.rs::Buffer::push_directive`: `/` then the directive name. -/
def Buffer.push_directive (b : Buffer) (argument : List Nat) : Option Buffer :=
  (b.push (strBytes "/")).bind (fun b => b.push argument)

/-- Tail of the loop in `buffer.rs::Buffer::push_values_hex`: hex renderings
joined by commas (a comma after every value but the last). -/
def pushHexValues (b : Buffer) (values : List Nat) : Option Buffer :=
  match values with
  | [] => some b
  | [v] => b.push (to_hex_u32 v)
  | v :: rest =>
    ((b.push (to_hex_u32 v)).bind (fun b => b.push (strBytes ","))).bind
      (fun b => pushHexValues b rest)

/-- From `buffer.rs::Buffer::push_values_hex`: for a nonempty value list,
`:` then the comma-separated hex renderings; for an empty list, no write. -/
def Buffer.push_values_hex (b : Buffer) (values : List Nat) : Option Buffer :=
  match values with
  | [] => some b
  | _ => (b.push (strBytes ":")).bind (fun b => pushHexValues b values)

/-- From `buffer.rs::Buffer::push_value_hex`: `:` then the hex rendering. -/
def Buffer.push_value_hex (b : Buffer) (value : Nat) : Option Buffer :=
  (b.push (strBytes ":")).bind (fun b => b.push (to_hex_u32 value))

/-- From `buffer.rs::Buffer::push_value_quoted`: if the value holds no double
quote, write `:"value"`; otherwise write nothing. -/
def Buffer.push_value_quoted (b : Buffer) (value : List Nat) : Option Buffer :=
  if !has_quote value then
    ((b.push (strBytes ":\"")).bind (fun b => b.push value)).bind
      (fun b => b.push (strBytes "\""))
  else
    some b

/-- From `buffer.rs::Buffer::push_seperator`: a single space. -/
def Buffer.push_seperator (b : Buffer) : Option Buffer :=
  b.push (strBytes " ")

/-! ## The size calculator (`msvc_impl.rs::ArgSize`) -/

/-- `ArgSize::STACK_SIZE`: the length of `/STACK:0x00000000 `. -/
def ArgSize.STACK_SIZE : Nat := (strBytes "/STACK:0x00000000 ").length

/-- `ArgSize::STACK_SIZE_WITH_COMMIT`: the length of
`/STACK:0x00000000,0x00000000 `. -/
def ArgSize.STACK_SIZE_WITH_COMMIT : Nat :=
  (strBytes "/STACK:0x00000000,0x00000000 ").length

/-- `ArgSize::DISABLE_ALL_DEFAULT_LIBS`: the length of `/NODEFAULTLIB `. -/
def ArgSize.DISABLE_ALL_DEFAULT_LIBS : Nat := (strBytes "/NODEFAULTLIB ").length

/-- `ArgSize::default_lib`: the template length plus the library name length. -/
def ArgSize.default_lib (lib : List Nat) : Nat :=
  (strBytes "/DEFAULTLIB: \"\"").length + lib.length

/-- `ArgSize::no_default_lib`: the template length plus the library name
length. -/
def ArgSize.no_default_lib (lib : List Nat) : Nat :=
  (strBytes "/NODEFAULTLIB: \"\"").length + lib.length

/-! ## The argument builder (`msvc_impl.rs::LinkArgs`)

`LinkArgs<CAPACITY>` only wraps a `Buffer<CAPACITY>`, so we model its methods
directly on `Buffer`. -/

/-- `LinkArgs::new`: an empty argument list over an all-zero buffer. -/
def LinkArgs.new (capacity : Nat) : Buffer := Buffer.new capacity

/-- `LinkArgs::stack_size`: `STACK` directive with a hex reserve value. -/
def LinkArgs.stack_size (b : Buffer) (reserve : Nat) : Option Buffer :=
  ((b.push_directive (strBytes "STACK")).bind
    (fun b => b.push_value_hex reserve)).bind
    (fun b => b.push_seperator)

/-- `LinkArgs::stack_size_with_commit`: `STACK` directive with hex reserve
and commit values. -/
def LinkArgs.stack_size_with_commit (b : Buffer) (reserve commit : Nat) :
    Option Buffer :=
  ((b.push_directive (strBytes "STACK")).bind
    (fun b => b.push_values_hex [reserve, commit])).bind
    (fun b => b.push_seperator)

/-- `LinkArgs::default_lib`: `DEFAULTLIB` directive with a quoted name. -/
def LinkArgs.default_lib (b : Buffer) (lib : List Nat) : Option Buffer :=
  ((b.push_directive (strBytes "DEFAULTLIB")).bind
    (fun b => b.push_value_quoted lib)).bind
    (fun b => b.push_seperator)

/-- `LinkArgs::no_default_lib`: `NODEFAULTLIB` directive with a quoted name. -/
def LinkArgs.no_default_lib (b : Buffer) (lib : List Nat) : Option Buffer :=
  ((b.push_directive (strBytes "NODEFAULTLIB")).bind
    (fun b => b.push_value_quoted lib)).bind
    (fun b => b.push_seperator)

/-- `LinkArgs::disable_all_default_libs`: bare `NODEFAULTLIB` directive. -/
def LinkArgs.disable_all_default_libs (b : Buffer) : Option Buffer :=
  (b.push_directive (strBytes "NODEFAULTLIB")).bind
    (fun b => b.push_seperator)

/-- `LinkArgs::raw`: the raw bytes followed by a separator. -/
def LinkArgs.raw (b : Buffer) (raw : List Nat) : Option Buffer :=
  (b.push raw).bind (fun b => b.push_seperator)

/-- `LinkArgs::len`: the cursor of the underlying buffer. -/
def LinkArgs.length (b : Buffer) : Nat := b.len

/-- `LinkArgs::into_array`: the underlying fixed byte array. -/
def LinkArgs.into_array (b : Buffer) : List Nat := b.buffer

/-! ## Directive lists (the `windows!` macro, `macros.rs`)

The `windows!` macro expands a directive list into (a) a sum of `ArgSize`
values via `impl_msvc_arg_size!` and (b) a chain of `LinkArgs` method calls
via `impl_msvc_args!`.  `Directive` is the tagged variant of the spec's data
model; `argSizeOf` and `appendDirective` are the two macro expansions. -/

inductive Directive where
  | stackSize (reserve : Nat)
  | stackSizeWithCommit (reserve commit : Nat)
  | defaultLib (name : List Nat)
  | noDefaultLibSome (name : List Nat)
  | noDefaultLibNone
  | raw (text : List Nat)
deriving DecidableEq, Repr

/-- `impl_msvc_arg_size!`: the per-directive byte budget. -/
def argSizeOf : Directive → Nat
  | .stackSize _ => ArgSize.STACK_SIZE
  | .stackSizeWithCommit _ _ => ArgSize.STACK_SIZE_WITH_COMMIT
  | .defaultLib name => ArgSize.default_lib name
  | .noDefaultLibSome name => ArgSize.no_default_lib name
  | .noDefaultLibNone => ArgSize.DISABLE_ALL_DEFAULT_LIBS
  | .raw text => text.length + 1

/-- `impl_msvc_args!`: dispatch one directive to its `LinkArgs` method. -/
def appendDirective (b : Buffer) : Directive → Option Buffer
  | .stackSize reserve => LinkArgs.stack_size b reserve
  | .stackSizeWithCommit reserve commit =>
      LinkArgs.stack_size_with_commit b reserve commit
  | .defaultLib name => LinkArgs.default_lib b name
  | .noDefaultLibSome name => LinkArgs.no_default_lib b name
  | .noDefaultLibNone => LinkArgs.disable_all_default_libs b
  | .raw text => LinkArgs.raw b text

/-- The fill loop of the `windows!` macro: append each directive in order. -/
def appendAll (b : Buffer) : List Directive → Option Buffer
  | [] => some b
  | d :: ds => (appendDirective b d).bind (fun b => appendAll b ds)

/-- The size pass of the `windows!` macro: `0 + size(d1) + size(d2) + ...`. -/
def totalSize (ds : List Directive) : Nat :=
  ds.foldl (fun acc d => acc + argSizeOf d) 0

/-! ## Specification-side descriptions -/

/-- Big-endian, zero-padded base-16 digits of `val`, `n` digits, using the
lowercase alphabet — the hex text a human would write. -/
def hexDigitsBE (val : Nat) : Nat → List Nat
  | 0 => []
  | n + 1 => hexDigitsBE (val / 16) n ++ [hexLookup.getD (val % 16) 0]

/-- The byte sequence a single directive's append writes (established
against `appendDirective` by `appendDirective_eq_push` below). -/
def render : Directive → List Nat
  | .stackSize reserve => strBytes "/STACK:" ++ to_hex_u32 reserve ++ strBytes " "
  | .stackSizeWithCommit reserve commit =>
      strBytes "/STACK:" ++ to_hex_u32 reserve ++ strBytes "," ++
        to_hex_u32 commit ++ strBytes " "
  | .defaultLib name =>
      if has_quote name then strBytes "/DEFAULTLIB "
      else strBytes "/DEFAULTLIB:\"" ++ name ++ strBytes "\" "
  | .noDefaultLibSome name =>
      if has_quote name then strBytes "/NODEFAULTLIB "
      else strBytes "/NODEFAULTLIB:\"" ++ name ++ strBytes "\" "
  | .noDefaultLibNone => strBytes "/NODEFAULTLIB "
  | .raw text => text ++ strBytes " "

/-- The concatenation of the renderings of a directive list. -/
def renderAll : List Directive → List Nat
  | [] => []
  | d :: ds => render d ++ renderAll ds

/-- No `DefaultLib` / `NoDefaultLib(Some name)` entry carries a name with an
embedded double quote. -/
def quoteFree : List Directive → Prop
  | [] => True
  | .defaultLib name :: ds => has_quote name = false ∧ quoteFree ds
  | .noDefaultLibSome name :: ds => has_quote name = false ∧ quoteFree ds
  | _ :: ds => quoteFree ds

instance : DecidablePred quoteFree := fun ds => by
  induction ds with
  | nil => exact .isTrue trivial
  | cons d ds ih => cases d <;> simp only [quoteFree] <;> infer_instance

/-! ## Characterizing `Buffer.push` -/

lemma set_append_cons (A : List Nat) (x c : Nat) (C : List Nat) :
    (A ++ c :: C).set A.length x = A ++ x :: C := by
  induction A with
  | nil => rfl
  | cons a A ih => simp [ih]

/-- A push that fits writes `src` at the cursor and advances it. -/
lemma push_split (src : List Nat) : ∀ (A C : List Nat), src.length ≤ C.length →
    Buffer.push ⟨A ++ C, A.length⟩ src =
      some ⟨A ++ src ++ C.drop src.length, A.length + src.length⟩ := by
  induction src with
  | nil => intro A C _; simp [Buffer.push]
  | cons x xs ih =>
    intro A C h
    cases C with
    | nil => simp at h
    | cons c C =>
      have hlt : A.length < (A ++ c :: C).length := by
        simp [List.length_append]
      rw [Buffer.push]
      simp only [hlt, if_pos, set_append_cons]
      have : (⟨A ++ x :: C, A.length + 1⟩ : Buffer) =
          ⟨(A ++ [x]) ++ C, (A ++ [x]).length⟩ := by
        simp
      rw [this, ih (A ++ [x]) C (by simpa using h)]
      simp [List.append_assoc]
      omega

/-- A push that does not fit hits an out-of-bounds write. -/
lemma push_split_none (src : List Nat) : ∀ (A C : List Nat), C.length < src.length →
    Buffer.push ⟨A ++ C, A.length⟩ src = none := by
  induction src with
  | nil => intro A C h; simp at h
  | cons x xs ih =>
    intro A C h
    cases C with
    | nil =>
      rw [Buffer.push]
      simp
    | cons c C =>
      have hlt : A.length < (A ++ c :: C).length := by
        simp [List.length_append]
      rw [Buffer.push]
      simp only [hlt, if_pos, set_append_cons]
      have : (⟨A ++ x :: C, A.length + 1⟩ : Buffer) =
          ⟨(A ++ [x]) ++ C, (A ++ [x]).length⟩ := by
        simp
      rw [this, ih (A ++ [x]) C (by simpa using h)]

lemma buffer_decomp (b : Buffer) (hb : b.len ≤ b.buffer.length) :
    b = ⟨b.buffer.take b.len ++ b.buffer.drop b.len, (b.buffer.take b.len).length⟩ := by
  cases b with
  | mk buf len => simp_all [List.take_append_drop, List.length_take, Nat.min_eq_left]

/-- `Buffer.push` success, for an arbitrary well-formed buffer. -/
lemma Buffer.push_eq_some (b : Buffer) (src : List Nat)
    (hb : b.len ≤ b.buffer.length) (h : b.len + src.length ≤ b.buffer.length) :
    b.push src = some ⟨b.buffer.take b.len ++ src ++ b.buffer.drop (b.len + src.length),
      b.len + src.length⟩ := by
  have hlen : (b.buffer.take b.len).length = b.len := by
    simp [List.length_take, Nat.min_eq_left hb]
  have hfit : src.length ≤ (b.buffer.drop b.len).length := by
    simp [List.length_drop]; omega
  have := push_split src (b.buffer.take b.len) (b.buffer.drop b.len) (by rw [hlen] at *; exact hfit)
  rw [hlen] at this
  rw [List.take_append_drop] at this
  rw [List.drop_drop] at this
  rw [show b.len + src.length = src.length + b.len from Nat.add_comm _ _] at this ⊢
  exact this

/-- `Buffer.push` failure, for an arbitrary well-formed buffer. -/
lemma Buffer.push_eq_none (b : Buffer) (src : List Nat)
    (hb : b.len ≤ b.buffer.length) (h : b.buffer.length < b.len + src.length) :
    b.push src = none := by
  have hlen : (b.buffer.take b.len).length = b.len := by
    simp [List.length_take, Nat.min_eq_left hb]
  have hfit : (b.buffer.drop b.len).length < src.length := by
    simp [List.length_drop]; omega
  have := push_split_none src (b.buffer.take b.len) (b.buffer.drop b.len) hfit
  rw [hlen, List.take_append_drop] at this
  exact this

/-- A successful push preserves capacity, advances the cursor by exactly the
source length, and keeps the cursor within capacity. -/
lemma Buffer.push_some_inv {b b' : Buffer} {src : List Nat}
    (hb : b.len ≤ b.buffer.length) (h : b.push src = some b') :
    b'.buffer.length = b.buffer.length ∧ b'.len = b.len + src.length ∧
      b'.len ≤ b'.buffer.length := by
  by_cases hfit : b.len + src.length ≤ b.buffer.length
  · rw [Buffer.push_eq_some b src hb hfit] at h
    cases h
    constructor
    · simp [List.length_append, List.length_take, List.length_drop]
      omega
    · constructor
      · rfl
      · simp [List.length_append, List.length_take, List.length_drop]
        omega
  · rw [Buffer.push_eq_none b src hb (by omega)] at h
    cases h

/-- Two consecutive pushes act as one push of the concatenation. -/
lemma push_push (s : List Nat) : ∀ (b : Buffer) (t : List Nat),
    b.len ≤ b.buffer.length →
    (b.push s).bind (fun x => x.push t) = b.push (s ++ t) := by
  induction s with
  | nil => intro b t _; rfl
  | cons x xs ih =>
    intro b t hb
    rw [Buffer.push, List.cons_append, Buffer.push]
    by_cases h : b.len < b.buffer.length
    · simp only [h, if_pos]
      exact ih _ t (by simpa using h)
    · simp only [h, if_neg, Option.bind]
      rfl

/-- Continuation form of `push_push`, used to fold a chain of pushes from the
left. -/
lemma push_push_bind (s t : List Nat) (b : Buffer) (k : Buffer → Option Buffer)
    (hb : b.len ≤ b.buffer.length) :
    (b.push s).bind (fun x => (x.push t).bind k) = (b.push (s ++ t)).bind k := by
  rw [← Option.bind_assoc, push_push s b t hb]

/-- Appending one directive is a single push of its rendering. -/
theorem appendDirective_eq_push (d : Directive) (b : Buffer)
    (hb : b.len ≤ b.buffer.length) :
    appendDirective b d = b.push (render d) := by
  cases d with
  | stackSize reserve =>
    simp only [appendDirective, LinkArgs.stack_size, Buffer.push_directive,
      Buffer.push_value_hex, Buffer.push_seperator, Option.bind_assoc]
    rw [push_push_bind _ _ _ _ hb, push_push_bind _ _ _ _ hb,
      push_push_bind _ _ _ _ hb, push_push _ _ _ hb]
    rfl
  | stackSizeWithCommit reserve commit =>
    simp only [appendDirective, LinkArgs.stack_size_with_commit,
      Buffer.push_directive, Buffer.push_values_hex, pushHexValues,
      Buffer.push_seperator, Option.bind_assoc]
    rw [push_push_bind _ _ _ _ hb, push_push_bind _ _ _ _ hb,
      push_push_bind _ _ _ _ hb, push_push_bind _ _ _ _ hb,
      push_push_bind _ _ _ _ hb, push_push _ _ _ hb]
    rfl
  | defaultLib name =>
    by_cases hq : has_quote name
    · simp only [appendDirective, LinkArgs.default_lib, Buffer.push_directive,
        Buffer.push_value_quoted, hq, Bool.not_true, Bool.false_eq_true,
        if_false, Option.bind_some, Buffer.push_seperator, Option.bind_assoc]
      rw [push_push_bind _ _ _ _ hb, push_push _ _ _ hb]
      simp only [render, hq, if_true]
      rfl
    · simp only [appendDirective, LinkArgs.default_lib, Buffer.push_directive,
        Buffer.push_value_quoted, hq, Bool.not_false, if_true,
        Buffer.push_seperator, Option.bind_assoc]
      rw [push_push_bind _ _ _ _ hb, push_push_bind _ _ _ _ hb,
        push_push_bind _ _ _ _ hb, push_push_bind _ _ _ _ hb, push_push _ _ _ hb]
      simp only [render, hq, Bool.false_eq_true, if_false]
      refine congrArg b.push ?_
      have e1 : strBytes "\"" ++ strBytes " " = strBytes "\" " := by decide
      have e2 : ∀ T : List Nat,
          strBytes "/" ++ (strBytes "DEFAULTLIB" ++ (strBytes ":\"" ++ T)) =
            strBytes "/DEFAULTLIB:\"" ++ T := by
        intro T
        rw [← List.append_assoc, ← List.append_assoc]
        exact congrArg (fun X => X ++ T) (by decide)
      simp only [List.append_assoc, e1, e2]
  | noDefaultLibSome name =>
    by_cases hq : has_quote name
    · simp only [appendDirective, LinkArgs.no_default_lib, Buffer.push_directive,
        Buffer.push_value_quoted, hq, Bool.not_true, Bool.false_eq_true,
        if_false, Option.bind_some, Buffer.push_seperator, Option.bind_assoc]
      rw [push_push_bind _ _ _ _ hb, push_push _ _ _ hb]
      simp only [render, hq, if_true]
      rfl
    · simp only [appendDirective, LinkArgs.no_default_lib, Buffer.push_directive,
        Buffer.push_value_quoted, hq, Bool.not_false, if_true,
        Buffer.push_seperator, Option.bind_assoc]
      rw [push_push_bind _ _ _ _ hb, push_push_bind _ _ _ _ hb,
        push_push_bind _ _ _ _ hb, push_push_bind _ _ _ _ hb, push_push _ _ _ hb]
      simp only [render, hq, Bool.false_eq_true, if_false]
      refine congrArg b.push ?_
      have e1 : strBytes "\"" ++ strBytes " " = strBytes "\" " := by decide
      have e2 : ∀ T : List Nat,
          strBytes "/" ++ (strBytes "NODEFAULTLIB" ++ (strBytes ":\"" ++ T)) =
            strBytes "/NODEFAULTLIB:\"" ++ T := by
        intro T
        rw [← List.append_assoc, ← List.append_assoc]
        exact congrArg (fun X => X ++ T) (by decide)
      simp only [List.append_assoc, e1, e2]
  | noDefaultLibNone =>
    simp only [appendDirective, LinkArgs.disable_all_default_libs,
      Buffer.push_directive, Buffer.push_seperator, Option.bind_assoc]
    rw [push_push_bind _ _ _ _ hb, push_push _ _ _ hb]
    rfl
  | raw text =>
    simp only [appendDirective, LinkArgs.raw, Buffer.push_seperator]
    rw [push_push _ _ _ hb]
    rfl

/-- The fill loop is a single push of the concatenated renderings. -/
theorem appendAll_eq_push (ds : List Directive) : ∀ b : Buffer,
    b.len ≤ b.buffer.length → appendAll b ds = b.push (renderAll ds) := by
  induction ds with
  | nil => intro b _; rfl
  | cons d ds ih =>
    intro b hb
    rw [appendAll, appendDirective_eq_push d b hb, renderAll,
      ← push_push (render d) b (renderAll ds) hb]
    cases hp : b.push (render d) with
    | none => rfl
    | some x =>
      simp only [Option.some_bind]
      exact ih x (Buffer.push_some_inv hb hp).2.2

/-! ## The hex encoder -/

lemma to_hex_loop_spec : ∀ (m : Nat) (val : Nat) (bytes : List Nat),
    m + 1 < bytes.length →
    to_hex_loop val bytes (m + 1) =
      bytes.take 2 ++ hexDigitsBE val m ++ bytes.drop (m + 2) := by
  intro m
  induction m with
  | zero =>
    intro val bytes _
    have h1 : to_hex_loop val bytes (0 + 1) = bytes := rfl
    rw [h1, hexDigitsBE]
    simp
  | succ n ih =>
    intro val bytes h
    rw [show n + 1 + 1 = n + 2 from rfl, to_hex_loop,
      ih (val / 16) _ (by simp only [List.length_set]; omega)]
    rw [List.set_eq_take_cons_drop _ (by omega)]
    have hlt : (bytes.take (n + 2)).length = n + 2 := by
      simp only [List.length_take]
      omega
    rw [List.take_append_of_le_length (by omega), List.take_take,
      List.drop_left' hlt]
    rw [hexDigitsBE]
    simp [List.append_assoc]

/-- The hex encoder writes the literal `0x` followed by the 8 big-endian
zero-padded lowercase hex digits of its input. -/
lemma to_hex_u32_eq (val : Nat) :
    to_hex_u32 val = strBytes "0x" ++ hexDigitsBE val 8 := by
  rw [to_hex_u32, show (9 : Nat) = 8 + 1 from rfl, to_hex_loop_spec 8 val _ (by decide)]
  have h1 : List.take 2 (strBytes "0x00000000") = strBytes "0x" := by decide
  have h2 : List.drop 10 (strBytes "0x00000000") = [] := by decide
  rw [List.append_assoc, h1, h2, List.append_nil]

lemma hexDigitsBE_length : ∀ (n val : Nat), (hexDigitsBE val n).length = n := by
  intro n
  induction n with
  | zero => intro val; rfl
  | succ n ih =>
    intro val
    rw [hexDigitsBE]
    simp [ih]

/-- Read a big-endian hex digit string back into the number it denotes
(each digit's value is its index in the lowercase hex alphabet). -/
def fromHexDigits (ds : List Nat) : Nat :=
  ds.foldl (fun acc d => acc * 16 + hexLookup.indexOf d) 0

lemma hexLookup_indexOf_getD : ∀ i < 16, hexLookup.indexOf (hexLookup.getD i 0) = i := by
  decide

/-- Decoding the digits written for `val` recovers `val` modulo `16 ^ n`. -/
lemma fromHexDigits_hexDigitsBE : ∀ (n val : Nat),
    fromHexDigits (hexDigitsBE val n) = val % 16 ^ n := by
  intro n
  induction n with
  | zero => intro val; simp [hexDigitsBE, fromHexDigits, Nat.mod_one]
  | succ n ih =>
    intro val
    rw [hexDigitsBE, fromHexDigits, List.foldl_append, ← fromHexDigits,
      ih (val / 16)]
    simp only [List.foldl_cons, List.foldl_nil]
    rw [hexLookup_indexOf_getD (val % 16) (Nat.mod_lt val (by omega))]
    rw [Nat.pow_succ, Nat.mul_comm (16 ^ n) 16, Nat.mod_mul]
    ring

/-- Every digit written by the encoder is drawn from the hex alphabet. -/
lemma hexDigitsBE_mem : ∀ (n val d : Nat), d ∈ hexDigitsBE val n → d ∈ hexLookup := by
  intro n
  induction n with
  | zero => intro val d h; simp [hexDigitsBE] at h
  | succ n ih =>
    intro val d h
    rw [hexDigitsBE] at h
    rcases List.mem_append.1 h with h | h
    · exact ih _ _ h
    · have hd : d = hexLookup.getD (val % 16) 0 := by simpa using h
      have : ∀ i < 16, hexLookup.getD i 0 ∈ hexLookup := by decide
      exact hd ▸ this (val % 16) (Nat.mod_lt val (by omega))

/-! ## Rendered length versus computed size -/

/-- Merge two concrete byte-string constants at the head of a
concatenation. -/
lemma strBytes_merge (s1 s2 s3 : String) (h : strBytes s1 ++ strBytes s2 = strBytes s3)
    (T : List Nat) : strBytes s1 ++ (strBytes s2 ++ T) = strBytes s3 ++ T := by
  rw [← List.append_assoc, h]

lemma to_hex_u32_length (val : Nat) : (to_hex_u32 val).length = 10 := by
  rw [to_hex_u32_eq]
  simp only [List.length_append, hexDigitsBE_length]
  decide

/-- For a quote-free directive list the rendered byte count equals the
computed size; the per-directive cases split on the directive kind. -/
lemma render_length_eq (d : Directive)
    (h : ∀ name, (d = .defaultLib name ∨ d = .noDefaultLibSome name) →
      has_quote name = false) :
    (render d).length = argSizeOf d := by
  cases d with
  | stackSize reserve =>
    simp [render, argSizeOf, ArgSize.STACK_SIZE, to_hex_u32_length]
    decide
  | stackSizeWithCommit reserve commit =>
    simp [render, argSizeOf, ArgSize.STACK_SIZE_WITH_COMMIT, to_hex_u32_length]
    decide
  | defaultLib name =>
    have hq : has_quote name = false := h name (Or.inl rfl)
    simp only [render, argSizeOf, ArgSize.default_lib, hq, Bool.false_eq_true,
      if_false, List.length_append]
    rw [show (strBytes "/DEFAULTLIB:\"").length = 13 from by decide,
      show (strBytes "\" ").length = 2 from by decide,
      show (strBytes "/DEFAULTLIB: \"\"").length = 15 from by decide]
    omega
  | noDefaultLibSome name =>
    have hq : has_quote name = false := h name (Or.inr rfl)
    simp only [render, argSizeOf, ArgSize.no_default_lib, hq, Bool.false_eq_true,
      if_false, List.length_append]
    rw [show (strBytes "/NODEFAULTLIB:\"").length = 15 from by decide,
      show (strBytes "\" ").length = 2 from by decide,
      show (strBytes "/NODEFAULTLIB: \"\"").length = 17 from by decide]
    omega
  | noDefaultLibNone =>
    simp [render, argSizeOf, ArgSize.DISABLE_ALL_DEFAULT_LIBS]
  | raw text =>
    simp only [render, argSizeOf, List.length_append]
    rw [show (strBytes " ").length = 1 from by decide]

lemma totalSize_cons_aux (ds : List Directive) : ∀ a : Nat,
    ds.foldl (fun acc d => acc + argSizeOf d) a = a + totalSize ds := by
  induction ds with
  | nil => intro a; simp [totalSize]
  | cons d ds ih =>
    intro a
    simp only [totalSize, List.foldl_cons] at *
    rw [ih (a + argSizeOf d), ih (0 + argSizeOf d)]
    omega

lemma totalSize_cons (d : Directive) (ds : List Directive) :
    totalSize (d :: ds) = argSizeOf d + totalSize ds := by
  rw [totalSize, List.foldl_cons, totalSize_cons_aux]
  omega

/-- Quote-free directive lists render exactly `totalSize` bytes. -/
lemma renderAll_length_eq (ds : List Directive) (h : quoteFree ds) :
    (renderAll ds).length = totalSize ds := by
  induction ds with
  | nil => rfl
  | cons d ds ih =>
    have hd : (render d).length = argSizeOf d := by
      apply render_length_eq
      intro name hname
      rcases hname with rfl | rfl
      · exact h.1
      · exact h.1
    have hds : quoteFree ds := by
      cases d <;> first | exact h.2 | exact h
    rw [renderAll, List.length_append, hd, ih hds, totalSize_cons]

/-- Rendered length never exceeds the computed size, quote or no quote. -/
lemma render_length_le (d : Directive) : (render d).length ≤ argSizeOf d := by
  by_cases h : ∀ name, (d = .defaultLib name ∨ d = .noDefaultLibSome name) →
      has_quote name = false
  · exact Nat.le_of_eq (render_length_eq d h)
  · push_neg at h
    obtain ⟨name, hname, hq⟩ := h
    rw [Bool.ne_false_iff] at hq
    rcases hname with rfl | rfl
    · simp only [render, hq, if_true, argSizeOf, ArgSize.default_lib]
      rw [show (strBytes "/DEFAULTLIB ").length = 12 from by decide,
        show (strBytes "/DEFAULTLIB: \"\"").length = 15 from by decide]
      omega
    · simp only [render, hq, if_true, argSizeOf, ArgSize.no_default_lib]
      rw [show (strBytes "/NODEFAULTLIB ").length = 14 from by decide,
        show (strBytes "/NODEFAULTLIB: \"\"").length = 17 from by decide]
      omega

lemma renderAll_length_le (ds : List Directive) :
    (renderAll ds).length ≤ totalSize ds := by
  induction ds with
  | nil => simp [renderAll, totalSize]
  | cons d ds ih =>
    rw [renderAll, List.length_append, totalSize_cons]
    have := render_length_le d
    omega

/-- Filling a fresh buffer of sufficient capacity writes the renderings at
the front and leaves the spare capacity as zero bytes. -/
lemma appendAll_new_exact (ds : List Directive) (cap : Nat)
    (h : (renderAll ds).length ≤ cap) :
    appendAll (LinkArgs.new cap) ds =
      some ⟨renderAll ds ++ List.replicate (cap - (renderAll ds).length) 0,
        (renderAll ds).length⟩ := by
  rw [appendAll_eq_push ds (LinkArgs.new cap) (by simp [LinkArgs.new, Buffer.new])]
  rw [Buffer.push_eq_some _ _ (by simp [LinkArgs.new, Buffer.new])
    (by simp [LinkArgs.new, Buffer.new]; omega)]
  simp [LinkArgs.new, Buffer.new, List.drop_replicate]

/-- Appending a single directive to a fresh buffer of exactly its rendered
length yields exactly its rendering. -/
lemma appendDirective_new_exact (d : Directive) :
    appendDirective (LinkArgs.new (render d).length) d =
      some ⟨render d, (render d).length⟩ := by
  rw [appendDirective_eq_push d _ (by simp [LinkArgs.new, Buffer.new])]
  rw [Buffer.push_eq_some _ _ (by simp [LinkArgs.new, Buffer.new])
    (by simp [LinkArgs.new, Buffer.new])]
  simp [LinkArgs.new, Buffer.new, List.drop_replicate]

/-! ## Rendered byte shapes in human-readable form -/

lemma render_stackSize (r : Nat) :
    render (.stackSize r) =
      strBytes "/STACK:0x" ++ hexDigitsBE r 8 ++ strBytes " " := by
  rw [show render (.stackSize r) =
      strBytes "/STACK:" ++ to_hex_u32 r ++ strBytes " " from rfl]
  rw [to_hex_u32_eq, List.append_assoc]
  exact strBytes_merge "/STACK:" "0x" "/STACK:0x" (by decide) _

lemma render_stackSizeWithCommit (r c : Nat) :
    render (.stackSizeWithCommit r c) =
      strBytes "/STACK:0x" ++ hexDigitsBE r 8 ++ strBytes ",0x" ++
        hexDigitsBE c 8 ++ strBytes " " := by
  rw [show render (.stackSizeWithCommit r c) =
      strBytes "/STACK:" ++ to_hex_u32 r ++ strBytes "," ++
        to_hex_u32 c ++ strBytes " " from rfl]
  rw [to_hex_u32_eq, to_hex_u32_eq]
  simp only [List.append_assoc]
  rw [strBytes_merge "/STACK:" "0x" "/STACK:0x" (by decide),
    strBytes_merge "," "0x" ",0x" (by decide)]

lemma render_defaultLib (name : List Nat) (hq : has_quote name = false) :
    render (.defaultLib name) =
      strBytes "/DEFAULTLIB:\"" ++ name ++ strBytes "\" " := by
  simp only [render, hq, Bool.false_eq_true, if_false]

lemma render_noDefaultLibSome (name : List Nat) (hq : has_quote name = false) :
    render (.noDefaultLibSome name) =
      strBytes "/NODEFAULTLIB:\"" ++ name ++ strBytes "\" " := by
  simp only [render, hq, Bool.false_eq_true, if_false]

/-! ## The claims -/

/-- C4: for every 32-bit unsigned integer, the hex encoder emits the literal
`0x` followed by exactly 8 ASCII characters from the lowercase alphabet
`0123456789abcdef`, and those 8 characters are the zero-padded big-endian
hexadecimal digits of the input (decoding them recovers the input). -/
theorem c4_hex_encoder_correct (val : Nat) (h : val < 2 ^ 32) :
    to_hex_u32 val = strBytes "0x" ++ hexDigitsBE val 8 ∧
    (hexDigitsBE val 8).length = 8 ∧
    fromHexDigits (hexDigitsBE val 8) = val ∧
    ∀ d ∈ hexDigitsBE val 8, d ∈ hexLookup := by
  refine ⟨to_hex_u32_eq val, hexDigitsBE_length 8 val, ?_,
    fun d hd => hexDigitsBE_mem 8 val d hd⟩
  rw [fromHexDigits_hexDigitsBE, show (16 : Nat) ^ 8 = 2 ^ 32 from by norm_num]
  exact Nat.mod_eq_of_lt h

/-- Witness for C4 at the concrete input `0x1a2b3c4d`. -/
theorem c4_hex_encoder_correct_witness :
    (0x1a2b3c4d : Nat) < 2 ^ 32 ∧
      (to_hex_u32 0x1a2b3c4d = strBytes "0x" ++ hexDigitsBE 0x1a2b3c4d 8 ∧
       (hexDigitsBE 0x1a2b3c4d 8).length = 8 ∧
       fromHexDigits (hexDigitsBE 0x1a2b3c4d 8) = 0x1a2b3c4d ∧
       ∀ d ∈ hexDigitsBE 0x1a2b3c4d 8, d ∈ hexLookup) :=
  ⟨by decide, c4_hex_encoder_correct 0x1a2b3c4d (by decide)⟩

/-- C5: for every 32-bit reserve value the size calculator gives 18 for the
`StackSize` directive, and appending it writes exactly `/STACK:0x`, then the
8 zero-padded lowercase hex digits of the reserve, then a single space. -/
theorem c5_stack_size_render (reserve : Nat) (h : reserve < 2 ^ 32) :
    argSizeOf (.stackSize reserve) = 18 ∧
    LinkArgs.stack_size (LinkArgs.new 18) reserve =
      some ⟨strBytes "/STACK:0x" ++ hexDigitsBE reserve 8 ++ strBytes " ", 18⟩ ∧
    (hexDigitsBE reserve 8).length = 8 ∧
    ∀ d ∈ hexDigitsBE reserve 8, d ∈ hexLookup := by
  have hlen : (render (.stackSize reserve)).length = 18 := by
    rw [render_length_eq _ (fun name hn => by rcases hn with h | h <;> simp at h)]
    exact (by decide : ArgSize.STACK_SIZE = 18)
  refine ⟨(by decide : ArgSize.STACK_SIZE = 18), ?_, hexDigitsBE_length 8 reserve,
    fun d hd => hexDigitsBE_mem 8 reserve d hd⟩
  have happ := appendDirective_new_exact (.stackSize reserve)
  rw [hlen, render_stackSize] at happ
  exact happ

/-- Witness for C5 at the concrete reserve `0x800000`. -/
theorem c5_stack_size_render_witness :
    (0x800000 : Nat) < 2 ^ 32 ∧
      (argSizeOf (.stackSize 0x800000) = 18 ∧
       LinkArgs.stack_size (LinkArgs.new 18) 0x800000 =
         some ⟨strBytes "/STACK:0x" ++ hexDigitsBE 0x800000 8 ++ strBytes " ", 18⟩ ∧
       (hexDigitsBE 0x800000 8).length = 8 ∧
       ∀ d ∈ hexDigitsBE 0x800000 8, d ∈ hexLookup) :=
  ⟨by decide, c5_stack_size_render 0x800000 (by decide)⟩

/-- C6: for every pair of 32-bit values the size calculator gives 29 for the
`StackSizeWithCommit` directive, and appending it writes `/STACK:0x`, the 8
hex digits of the reserve, `,0x`, the 8 hex digits of the commit, and one
trailing space. -/
theorem c6_stack_size_with_commit_render (reserve commit : Nat)
    (h : reserve < 2 ^ 32 ∧ commit < 2 ^ 32) :
    argSizeOf (.stackSizeWithCommit reserve commit) = 29 ∧
    LinkArgs.stack_size_with_commit (LinkArgs.new 29) reserve commit =
      some ⟨strBytes "/STACK:0x" ++ hexDigitsBE reserve 8 ++ strBytes ",0x" ++
        hexDigitsBE commit 8 ++ strBytes " ", 29⟩ ∧
    (hexDigitsBE reserve 8).length = 8 ∧ (hexDigitsBE commit 8).length = 8 := by
  have hlen : (render (.stackSizeWithCommit reserve commit)).length = 29 := by
    rw [render_length_eq _ (fun name hn => by rcases hn with h | h <;> simp at h)]
    exact (by decide : ArgSize.STACK_SIZE_WITH_COMMIT = 29)
  refine ⟨(by decide : ArgSize.STACK_SIZE_WITH_COMMIT = 29), ?_,
    hexDigitsBE_length 8 reserve, hexDigitsBE_length 8 commit⟩
  have happ := appendDirective_new_exact (.stackSizeWithCommit reserve commit)
  rw [hlen, render_stackSizeWithCommit] at happ
  exact happ

/-- Witness for C6 at the concrete pair `(0x800000, 0x400000)`. -/
theorem c6_stack_size_with_commit_render_witness :
    ((0x800000 : Nat) < 2 ^ 32 ∧ (0x400000 : Nat) < 2 ^ 32) ∧
      (argSizeOf (.stackSizeWithCommit 0x800000 0x400000) = 29 ∧
       LinkArgs.stack_size_with_commit (LinkArgs.new 29) 0x800000 0x400000 =
         some ⟨strBytes "/STACK:0x" ++ hexDigitsBE 0x800000 8 ++ strBytes ",0x" ++
           hexDigitsBE 0x400000 8 ++ strBytes " ", 29⟩ ∧
       (hexDigitsBE 0x800000 8).length = 8 ∧ (hexDigitsBE 0x400000 8).length = 8) :=
  ⟨by decide, c6_stack_size_with_commit_render 0x800000 0x400000 (by decide)⟩

/-- C7: for every quote-free library name the size calculator gives
`15 + name.length` for the `DefaultLib` directive, and appending it writes
exactly `/DEFAULTLIB:"name" `. -/
theorem c7_default_lib_render (name : List Nat) (hq : has_quote name = false) :
    argSizeOf (.defaultLib name) = 15 + name.length ∧
    LinkArgs.default_lib (LinkArgs.new (15 + name.length)) name =
      some ⟨strBytes "/DEFAULTLIB:\"" ++ name ++ strBytes "\" ",
        15 + name.length⟩ := by
  have hsize : argSizeOf (.defaultLib name) = 15 + name.length := by
    simp only [argSizeOf, ArgSize.default_lib]
    rw [show (strBytes "/DEFAULTLIB: \"\"").length = 15 from by decide]
  have hlen : (render (.defaultLib name)).length = 15 + name.length := by
    rw [render_length_eq _ (fun n hn => by
      rcases hn with h | h
      · cases h; exact hq
      · simp at h)]
    exact hsize
  refine ⟨hsize, ?_⟩
  have happ := appendDirective_new_exact (.defaultLib name)
  rw [hlen, render_defaultLib name hq] at happ
  exact happ

/-- Witness for C7 at the concrete name `ucrt`. -/
theorem c7_default_lib_render_witness :
    has_quote (strBytes "ucrt") = false ∧
      (argSizeOf (.defaultLib (strBytes "ucrt")) = 15 + (strBytes "ucrt").length ∧
       LinkArgs.default_lib (LinkArgs.new (15 + (strBytes "ucrt").length))
           (strBytes "ucrt") =
         some ⟨strBytes "/DEFAULTLIB:\"" ++ strBytes "ucrt" ++ strBytes "\" ",
           15 + (strBytes "ucrt").length⟩) :=
  ⟨by decide, c7_default_lib_render (strBytes "ucrt") (by decide)⟩

/-- C8: rendering `[A, B]` yields `render A ++ render B` and rendering
`[B, A]` yields `render B ++ render A`; a single directive alone yields
exactly its own rendering, so concatenation order matches append order. -/
theorem c8_order_preservation (A B : Directive) :
    appendAll (LinkArgs.new (render A).length) [A] =
      some ⟨render A, (render A).length⟩ ∧
    appendAll (LinkArgs.new ((render A).length + (render B).length)) [A, B] =
      some ⟨render A ++ render B, (render A).length + (render B).length⟩ ∧
    appendAll (LinkArgs.new ((render B).length + (render A).length)) [B, A] =
      some ⟨render B ++ render A, (render B).length + (render A).length⟩ := by
  have pair : ∀ X Y : Directive,
      appendAll (LinkArgs.new ((render X).length + (render Y).length)) [X, Y] =
        some ⟨render X ++ render Y, (render X).length + (render Y).length⟩ := by
    intro X Y
    have hxy : renderAll [X, Y] = render X ++ render Y := by
      simp [renderAll]
    have h := appendAll_new_exact [X, Y]
      ((render X).length + (render Y).length)
      (by rw [hxy]; simp [List.length_append])
    rw [hxy] at h
    simpa [List.length_append] using h
  refine ⟨?_, pair A B, pair B A⟩
  have hx : renderAll [A] = render A := by simp [renderAll]
  have h := appendAll_new_exact [A] (render A).length (by rw [hx])
  rw [hx] at h
  simpa using h

/-- C9: a fresh buffer is all zeros with cursor 0, and when the appended
directives render to `n ≤ CAPACITY` bytes, finalization returns those `n`
bytes followed by `CAPACITY - n` NUL (0x00) bytes, embedded verbatim. -/
theorem c9_new_zeroed_and_underfill_nuls (cap : Nat) (ds : List Directive)
    (h : (renderAll ds).length ≤ cap) :
    LinkArgs.new cap = ⟨List.replicate cap 0, 0⟩ ∧
    (LinkArgs.new cap).buffer.length = cap ∧
    ∃ final, appendAll (LinkArgs.new cap) ds = some final ∧
      LinkArgs.length final = (renderAll ds).length ∧
      LinkArgs.into_array final =
        renderAll ds ++ List.replicate (cap - (renderAll ds).length) 0 := by
  refine ⟨rfl, by simp [LinkArgs.new, Buffer.new], ?_⟩
  exact ⟨_, appendAll_new_exact ds cap h, rfl, rfl⟩

/-- Witness for C9: one 18-byte stack directive in a 20-byte buffer leaves
two trailing NULs. -/
theorem c9_new_zeroed_and_underfill_nuls_witness :
    (renderAll [Directive.stackSize 0x800000]).length ≤ 20 ∧
      (LinkArgs.new 20 = ⟨List.replicate 20 0, 0⟩ ∧
       (LinkArgs.new 20).buffer.length = 20 ∧
       ∃ final, appendAll (LinkArgs.new 20) [Directive.stackSize 0x800000] = some final ∧
         LinkArgs.length final = (renderAll [Directive.stackSize 0x800000]).length ∧
         LinkArgs.into_array final = renderAll [Directive.stackSize 0x800000] ++
           List.replicate (20 - (renderAll [Directive.stackSize 0x800000]).length) 0) :=
  ⟨by decide, c9_new_zeroed_and_underfill_nuls 20 [Directive.stackSize 0x800000] (by decide)⟩

/-- C10: a push that fits writes every byte in bounds and advances the
cursor by exactly the source length; a push that does not fit reaches an
out-of-bounds index, modelled as the constant-evaluation failure `none` —
it never wraps or truncates. -/
theorem c10_push_bounds (b : Buffer) (src : List Nat)
    (hb : b.len ≤ b.buffer.length) :
    (b.len + src.length ≤ b.buffer.length →
      b.push src = some ⟨b.buffer.take b.len ++ src ++
        b.buffer.drop (b.len + src.length), b.len + src.length⟩) ∧
    (b.buffer.length < b.len + src.length → b.push src = none) :=
  ⟨fun h => Buffer.push_eq_some b src hb h,
   fun h => Buffer.push_eq_none b src hb h⟩

/-- Witness for C10 at a concrete buffer and slice. -/
theorem c10_push_bounds_witness :
    (⟨[0, 0, 0], 1⟩ : Buffer).len ≤ (⟨[0, 0, 0], 1⟩ : Buffer).buffer.length ∧
      (((⟨[0, 0, 0], 1⟩ : Buffer).len + [7, 8].length ≤
          (⟨[0, 0, 0], 1⟩ : Buffer).buffer.length →
        (⟨[0, 0, 0], 1⟩ : Buffer).push [7, 8] =
          some ⟨(⟨[0, 0, 0], 1⟩ : Buffer).buffer.take 1 ++ [7, 8] ++
            (⟨[0, 0, 0], 1⟩ : Buffer).buffer.drop (1 + [7, 8].length),
            1 + [7, 8].length⟩) ∧
       ((⟨[0, 0, 0], 1⟩ : Buffer).buffer.length <
          (⟨[0, 0, 0], 1⟩ : Buffer).len + [7, 8].length →
        (⟨[0, 0, 0], 1⟩ : Buffer).push [7, 8] = none)) :=
  ⟨by decide, c10_push_bounds ⟨[0, 0, 0], 1⟩ [7, 8] (by decide)⟩

/-- C1 counterexample: for the quoted name `my"lib` the size calculator
returns 21 (respectively 23), not 0 — the directive is not dropped from the
size total. -/
theorem c1_counterexample_quoted_size_nonzero :
    has_quote (strBytes "my\"lib") = true ∧
    argSizeOf (.defaultLib (strBytes "my\"lib")) = 21 ∧
    argSizeOf (.noDefaultLibSome (strBytes "my\"lib")) = 23 ∧
    argSizeOf (.defaultLib (strBytes "my\"lib")) ≠ 0 ∧
    argSizeOf (.noDefaultLibSome (strBytes "my\"lib")) ≠ 0 := by
  decide

/-- C1 amended: the size calculator never inspects the name for quotes; for
every name it returns `15 + name.length` for `DefaultLib` and
`17 + name.length` for `NoDefaultLib(Some name)`, quoted or not. -/
theorem c1_size_calculator_ignores_quotes (name : List Nat) :
    argSizeOf (.defaultLib name) = 15 + name.length ∧
    argSizeOf (.noDefaultLibSome name) = 17 + name.length := by
  constructor
  · simp only [argSizeOf, ArgSize.default_lib]
    rw [show (strBytes "/DEFAULTLIB: \"\"").length = 15 from by decide]
  · simp only [argSizeOf, ArgSize.no_default_lib]
    rw [show (strBytes "/NODEFAULTLIB: \"\"").length = 17 from by decide]

/-- C2 counterexample: appending `DefaultLib` with the quoted name `my"lib`
writes the 12 bytes `/DEFAULTLIB ` (keyword plus separator) and advances the
cursor from 0 to 12 — it does not write nothing. -/
theorem c2_counterexample_quoted_append_writes :
    has_quote (strBytes "my\"lib") = true ∧
    LinkArgs.default_lib (Buffer.new 12) (strBytes "my\"lib") =
      some ⟨strBytes "/DEFAULTLIB ", 12⟩ ∧
    (12 : Nat) ≠ 0 := by
  decide

/-- C2 amended: with a quoted name only the `:"name"` value part is skipped;
`default_lib` still writes the 12 bytes `/DEFAULTLIB ` and advances the
cursor by 12, and `no_default_lib` still writes the 14 bytes
`/NODEFAULTLIB ` (identical to `disable_all_default_libs`) and advances the
cursor by 14. -/
theorem c2_quoted_append_writes_keyword (name : List Nat) (b : Buffer)
    (hq : has_quote name = true) (hb : b.len ≤ b.buffer.length) :
    (b.len + 12 ≤ b.buffer.length →
      LinkArgs.default_lib b name =
        some ⟨b.buffer.take b.len ++ strBytes "/DEFAULTLIB " ++
          b.buffer.drop (b.len + 12), b.len + 12⟩) ∧
    (b.len + 14 ≤ b.buffer.length →
      LinkArgs.no_default_lib b name =
        some ⟨b.buffer.take b.len ++ strBytes "/NODEFAULTLIB " ++
          b.buffer.drop (b.len + 14), b.len + 14⟩) := by
  constructor
  · intro h
    have := appendDirective_eq_push (.defaultLib name) b hb
    simp only [appendDirective, render, hq, if_true] at this
    rw [this, Buffer.push_eq_some b _ hb
      (by rw [show (strBytes "/DEFAULTLIB ").length = 12 from by decide]; omega)]
    rw [show (strBytes "/DEFAULTLIB ").length = 12 from by decide]
  · intro h
    have := appendDirective_eq_push (.noDefaultLibSome name) b hb
    simp only [appendDirective, render, hq, if_true] at this
    rw [this, Buffer.push_eq_some b _ hb
      (by rw [show (strBytes "/NODEFAULTLIB ").length = 14 from by decide]; omega)]
    rw [show (strBytes "/NODEFAULTLIB ").length = 14 from by decide]

/-- Witness for the amended C2 at the name `my"lib` and a fresh 14-byte
buffer. -/
theorem c2_quoted_append_writes_keyword_witness :
    (has_quote (strBytes "my\"lib") = true ∧
      (Buffer.new 14).len ≤ (Buffer.new 14).buffer.length) ∧
      (((Buffer.new 14).len + 12 ≤ (Buffer.new 14).buffer.length →
        LinkArgs.default_lib (Buffer.new 14) (strBytes "my\"lib") =
          some ⟨(Buffer.new 14).buffer.take (Buffer.new 14).len ++
            strBytes "/DEFAULTLIB " ++
            (Buffer.new 14).buffer.drop ((Buffer.new 14).len + 12),
            (Buffer.new 14).len + 12⟩) ∧
       ((Buffer.new 14).len + 14 ≤ (Buffer.new 14).buffer.length →
        LinkArgs.no_default_lib (Buffer.new 14) (strBytes "my\"lib") =
          some ⟨(Buffer.new 14).buffer.take (Buffer.new 14).len ++
            strBytes "/NODEFAULTLIB " ++
            (Buffer.new 14).buffer.drop ((Buffer.new 14).len + 14),
            (Buffer.new 14).len + 14⟩)) :=
  ⟨⟨by decide, by decide⟩,
    c2_quoted_append_writes_keyword (strBytes "my\"lib") (Buffer.new 14)
      (by decide) (by decide)⟩

/-- C3 counterexample: for the single directive `DefaultLib "my\"lib"` the
size pass computes 21 bytes, but filling a 21-byte buffer writes only 12
bytes — the final cursor does not equal the computed total. -/
theorem c3_counterexample_quoted_roundtrip_underfills :
    totalSize [Directive.defaultLib (strBytes "my\"lib")] = 21 ∧
    appendAll (LinkArgs.new 21) [Directive.defaultLib (strBytes "my\"lib")] =
      some ⟨strBytes "/DEFAULTLIB " ++ List.replicate 9 0, 12⟩ ∧
    (12 : Nat) ≠ 21 := by
  decide

/-- C3 amended: for every quote-free directive list the round trip is exact:
appending into a buffer of capacity `totalSize` succeeds and the final
cursor equals `totalSize`, the buffer holding exactly the concatenated
renderings.  For arbitrary lists (quotes allowed) the fill still never
overflows: it succeeds and the cursor stays at most `totalSize`. -/
theorem c3_roundtrip_exact_when_quote_free (ds : List Directive)
    (h : quoteFree ds) :
    (∃ final, appendAll (LinkArgs.new (totalSize ds)) ds = some final ∧
      LinkArgs.length final = totalSize ds ∧
      LinkArgs.into_array final = renderAll ds) ∧
    (∀ ds' : List Directive,
      ∃ final, appendAll (LinkArgs.new (totalSize ds')) ds' = some final ∧
        LinkArgs.length final ≤ totalSize ds') := by
  constructor
  · have hl := renderAll_length_eq ds h
    refine ⟨_, appendAll_new_exact ds (totalSize ds) (by omega), ?_, ?_⟩
    · simp [LinkArgs.length, hl]
    · simp [LinkArgs.into_array, hl]
  · intro ds'
    have hle := renderAll_length_le ds'
    exact ⟨_, appendAll_new_exact ds' (totalSize ds') hle,
      by simp [LinkArgs.length, hle]⟩

/-- Witness for the amended C3 at a concrete quote-free directive list. -/
theorem c3_roundtrip_exact_when_quote_free_witness :
    quoteFree [Directive.stackSize 0x800000,
      Directive.defaultLib (strBytes "ucrt"), Directive.noDefaultLibNone,
      Directive.raw (strBytes "/ENTRY:mainCRTStartup")] ∧
      ((∃ final, appendAll
          (LinkArgs.new (totalSize [Directive.stackSize 0x800000,
            Directive.defaultLib (strBytes "ucrt"), Directive.noDefaultLibNone,
            Directive.raw (strBytes "/ENTRY:mainCRTStartup")]))
          [Directive.stackSize 0x800000, Directive.defaultLib (strBytes "ucrt"),
            Directive.noDefaultLibNone,
            Directive.raw (strBytes "/ENTRY:mainCRTStartup")] = some final ∧
        LinkArgs.length final = totalSize [Directive.stackSize 0x800000,
          Directive.defaultLib (strBytes "ucrt"), Directive.noDefaultLibNone,
          Directive.raw (strBytes "/ENTRY:mainCRTStartup")] ∧
        LinkArgs.into_array final = renderAll [Directive.stackSize 0x800000,
          Directive.defaultLib (strBytes "ucrt"), Directive.noDefaultLibNone,
          Directive.raw (strBytes "/ENTRY:mainCRTStartup")]) ∧
       (∀ ds' : List Directive,
         ∃ final, appendAll (LinkArgs.new (totalSize ds')) ds' = some final ∧
           LinkArgs.length final ≤ totalSize ds')) :=
  ⟨by decide,
    c3_roundtrip_exact_when_quote_free [Directive.stackSize 0x800000,
      Directive.defaultLib (strBytes "ucrt"), Directive.noDefaultLibNone,
      Directive.raw (strBytes "/ENTRY:mainCRTStartup")] (by decide)⟩
